import Mathlib

/-!
# sgrumley/lib — error model, classifiers and response rendering

A shallow embedding of the Go package `http/rest` (files `errors.go`,
`external_errors.go`, `response.go`) together with the facts proved about it.

Modelling conventions

* A Go `error` interface value is a term of `GoError`.  `GoError.nil` is the nil
  interface.  Pointer-typed errors (`*pq.Error`, `*rest.Error`, the values made
  by `errors.New` and `fmt.Errorf`) are represented by the value they point to,
  so a pointer inside a `GoError` is never a nil pointer.  The nil `*pq.Error`
  held in a non-nil interface is a separate value of `ErrorArg`, the argument
  type of `IsAlreadyExists`, which reads through that pointer.
* `*pq.Error` values carry the address of the pointed-to struct, because
  `IsNotFound` compares pointers.
* A Go `int` is an `Int`; no arithmetic is performed on statuses.
* A `[]FieldError` is a `List FieldError`; the nil slice and the empty slice are
  both `[]` (they have the same length and render identically everywhere the
  package looks at them).
* An `http.ResponseWriter` is the list of calls made on it so far.
-/

set_option linter.dupNamespace false

namespace Rest

/-! ## Data model (`errors.go`) -/

/-- FieldError of `errors.go`: `Field` has tag `json:"field"`, `Description` has
tag `json:"description,omitempty"`. -/
structure FieldError where
  Field : String
  Description : String
deriving DecidableEq, Repr

/-- Go `error` interface values that occur around this package.

* `nil` — the nil interface value;
* `leaf msg` — a value made by `errors.New(msg)` (no `Unwrap`, no `Is`, no `As`),
  other than the `sql.ErrNoRows` sentinel;
* `errNoRows` — the sentinel `sql.ErrNoRows`;
* `wrap msg inner` — an error whose `Error()` is `msg` and whose `Unwrap()`
  returns `inner` (what `fmt.Errorf` with one `%w` builds);
* `join a b` — an error whose `Unwrap() []error` returns `[a, b]`
  (what `errors.Join(a, b)` builds);
* `pq addr code message` — a `*pq.Error` at address `addr` with the given `Code`
  and `Message`;
* `api isPtr cause status code description fields` — a `rest.Error` value
  (`isPtr = false`) or a `*rest.Error` (`isPtr = true`) with fields
  `Err, Status, Code, Description, Fields`.  Both implement `APIError`, because
  `GetData` has a value receiver.  `rest.Error` has no `Unwrap` method. -/
inductive GoError where
  | nil : GoError
  | leaf (msg : String) : GoError
  | errNoRows : GoError
  | wrap (msg : String) (inner : GoError) : GoError
  | join (a b : GoError) : GoError
  | pq (addr : Nat) (code message : String) : GoError
  | api (isPtr : Bool) (cause : GoError) (status : Int) (code description : String)
      (fields : List FieldError) : GoError
deriving DecidableEq, Repr

/-- Error struct of `errors.go`. -/
structure Error where
  Err : GoError
  Status : Int
  Code : String
  Description : String
  Fields : List FieldError
deriving DecidableEq, Repr

/-- An `Error` value stored in an `error` interface. -/
def Error.toError (er : Error) : GoError :=
  .api false er.Err er.Status er.Code er.Description er.Fields

/-- A `*Error` stored in an `error` interface. -/
def Error.toPtrError (er : Error) : GoError :=
  .api true er.Err er.Status er.Code er.Description er.Fields

/-- NewRequestError of `errors.go`; the result is a `*Error`, `Fields` is left at its zero value. -/
def NewRequestError (err : GoError) (status : Int) (code publicMsg : String) : Error :=
  { Err := err, Status := status, Code := code, Description := publicMsg, Fields := [] }

/-- The constant `http.StatusBadRequest`. -/
def StatusBadRequest : Int := 400

/-- The constant `http.StatusInternalServerError`. -/
def StatusInternalServerError : Int := 500

/-- The table `http.StatusText` of `net/http`, on the codes this package uses. -/
def StatusText (code : Int) : String :=
  if code = 400 then "Bad Request"
  else if code = 401 then "Unauthorized"
  else if code = 403 then "Forbidden"
  else if code = 404 then "Not Found"
  else if code = 409 then "Conflict"
  else if code = 415 then "Unsupported Media Type"
  else if code = 422 then "Unprocessable Entity"
  else if code = 429 then "Too Many Requests"
  else if code = 500 then "Internal Server Error"
  else if code = 504 then "Gateway Timeout"
  else ""

/-- The `%v` rendering of one `FieldError` by `fmt`: `{Field Description}`. -/
def FieldError.fmtV (f : FieldError) : String :=
  "\x7b" ++ f.Field ++ " " ++ f.Description ++ "\x7d"

/-- The `%v` rendering of a `[]FieldError` by `fmt`: the elements separated by one
space, inside square brackets. -/
def fmtFields (fs : List FieldError) : String :=
  "[" ++ " ".intercalate (fs.map FieldError.fmtV) ++ "]"

/-- The method `Error()` of every error value, with `Error.Error` of `errors.go`
(lines 58-77) for the `api` case.  `fmt.Sprintf("%v", er.Status)` is the decimal
rendering of the status.  The nil interface has no `Error()`; the value given
for it is never used, every caller tests `!= nil` first. -/
def GoError.Error : GoError → String
  | .nil => ""
  | .leaf msg => msg
  | .errNoRows => "sql: no rows in result set"
  | .wrap msg _ => msg
  | .join a b => a.Error ++ "\n" ++ b.Error
  | .pq _ _ message => "pq: " ++ message
  | .api _ cause status code description fields =>
    let causeStr : String :=
      if cause ≠ .nil then ": " ++ cause.Error else ""
    let sb : String := ""
    let sb := sb ++ ("http status = " ++ toString status ++ ", publicMsg = " ++ description)
    let sb := if code ≠ "" then sb ++ (", code = " ++ code) else sb
    let sb := if fields.length > 0 then sb ++ (", fields = " ++ fmtFields fields) else sb
    let sb := if causeStr ≠ "" then sb ++ causeStr else sb
    sb

/-- Error.Error of `errors.go`. -/
def Error.Error (er : Error) : String := er.toError.Error

/-- Error.GetData of `errors.go`. -/
def Error.GetData (er : Rest.Error) : Int × String × String × List FieldError :=
  (er.Status, er.Code, er.Description, er.Fields)

/-- FromFieldErrors of `errors.go`: an `Error` value returned as an `error`. -/
def FromFieldErrors (fieldErrs : List FieldError) : GoError :=
  Error.toError
    { Err := .nil, Status := StatusBadRequest, Code := "invalid_request",
      Description := "Invalid request", Fields := fieldErrs }

/-- Err500Default of `errors.go`. -/
def Err500Default : Error :=
  { Err := .nil, Status := StatusInternalServerError,
    Description := StatusText StatusInternalServerError,
    Code := "generic_internal_server_error", Fields := [] }

/-! ## The `errors` package: `errors.As` and `errors.Is` -/

/-- Whether the dynamic type of an error value has the method `GetData`, that is,
is assignable to `APIError`. -/
def GoError.implementsAPIError : GoError → Bool
  | .api _ _ _ _ _ _ => true
  | _ => false

/-- The chain of an error: the value itself and everything reachable from it
through `Unwrap() error` and `Unwrap() []error`, in the depth-first order in
which `errors.As` and `errors.Is` visit it.  The nil interface has an empty
chain. -/
def GoError.chain : GoError → List GoError
  | .nil => []
  | .wrap msg inner => .wrap msg inner :: inner.chain
  | .join a b => .join a b :: (a.chain ++ b.chain)
  | e => [e]

/-- The call `errors.As(err, &apiErr)` with `apiErr` of interface type `APIError`:
the first value of the chain whose type is assignable to `APIError`, as the
`Error` it holds, or `none` when `As` returns false. -/
def errorsAsAPIError : GoError → Option Error
  | .nil => none
  | .leaf _ => none
  | .errNoRows => none
  | .pq _ _ _ => none
  | .wrap _ inner => errorsAsAPIError inner
  | .join a b =>
    match errorsAsAPIError a with
    | some e => some e
    | none => errorsAsAPIError b
  | .api _ cause status code description fields =>
    some { Err := cause, Status := status, Code := code, Description := description,
           Fields := fields }

/-- The targets `errors.Is` is called with in this package: the `sql.ErrNoRows`
sentinel and a pointer to a `pq.Error`, identified by its address. -/
inductive IsTarget where
  | errNoRows : IsTarget
  | pqPtr (addr : Nat) : IsTarget
deriving DecidableEq, Repr

/-- The comparison `err == target` of two interface values where `target` is one
of the pointers of `IsTarget`: true exactly when `err` is the same pointer. -/
def GoError.sameAs : GoError → IsTarget → Bool
  | .errNoRows, .errNoRows => true
  | .pq a _ _, .pqPtr b => a == b
  | _, _ => false

/-- The call `errors.Is(err, target)` for a non-nil comparable target: no error
value of the model has an `Is` method, so a value matches only by `==`, and the
search continues through `Unwrap`. -/
def errorsIs : GoError → IsTarget → Bool
  | .nil, _ => false
  | .wrap msg inner, t => (GoError.wrap msg inner).sameAs t || errorsIs inner t
  | .join a b, t => (GoError.join a b).sameAs t || errorsIs a t || errorsIs b t
  | e, t => e.sameAs t

/-- The largest address of a `*pq.Error` occurring anywhere in an error value
(causes included), plus one: an address at which nothing is allocated yet. -/
def GoError.freshAddr : GoError → Nat
  | .wrap _ inner => inner.freshAddr
  | .join a b => max a.freshAddr b.freshAddr
  | .pq addr _ _ => addr + 1
  | .api _ cause _ _ _ _ => cause.freshAddr
  | _ => 0

/-! ## Classifiers (`external_errors.go`) -/

/-- An `error` interface value as a caller can hand it to `IsAlreadyExists`: a
value of `GoError` (the nil interface, or a value behind a non-nil pointer), or
the non-nil interface that holds the nil pointer of type `*pq.Error`
(`var p *pq.Error; var err error = p`). -/
inductive ErrorArg where
  | val (e : GoError) : ErrorArg
  | nilPqPointer : ErrorArg
deriving DecidableEq, Repr

/-- IsAlreadyExists of `external_errors.go`: the type assertion `err.(*pq.Error)`
looks at `err` itself, not at what it wraps, and succeeds for every `*pq.Error`,
the nil pointer included; `pqErr.Code` then reads through the pointer, which on
the nil pointer is a run-time panic: `none`. -/
def IsAlreadyExists : ErrorArg → Option Bool
  | .nilPqPointer => none
  | .val (.pq _ code _) => if code = "23505" then some true else some false
  | .val _ => some false

/-- IsNotFound of `external_errors.go`.  `pqErr := pq.Error{}` allocates a new
struct, at an address no existing error uses; `errors.Is(err, &pqErr)` is then
asked for that pointer. -/
def IsNotFound (err : GoError) : Bool :=
  let pqErr : Nat := err.freshAddr
  let hit : Bool :=
    if errorsIs err (.pqPtr pqErr) then
      match err with
      | .pq _ code _ => if code = "20000" then true else false
      | _ => false
    else false
  if hit then true
  else if errorsIs err .errNoRows then true
  else false

/-! ## `encoding/json`: the text written for a value -/

/-- A JSON text as a tree.  A number carries the text `encoding/json` writes for
it; the members of an object are in the order in which they are written. -/
inductive JSON where
  | null : JSON
  | bool (b : Bool) : JSON
  | num (text : String) : JSON
  | str (s : String) : JSON
  | arr (xs : List JSON) : JSON
  | obj (members : List (String × JSON)) : JSON
deriving Repr

/-- Lower-case hexadecimal digit of a number below sixteen. -/
def hexDigit (n : Nat) : Char :=
  if n < 10 then Char.ofNat (48 + n) else Char.ofNat (87 + n)

/-- What `encoding/json` writes for one character inside a string, with HTML
escaping on (the default of both `json.Marshal` and `json.Encoder`; short
escapes as written since Go 1.22): the quote
(34) and the backslash (92) get a backslash, the control characters get their
short escape or `\u00XX`, `<` (60), `>` (62), `&` (38), U+2028 and U+2029 get
`\uXXXX`, every other character is written as it is. -/
def escapeRune (c : Char) : String :=
  let n := c.toNat
  if n = 34 then "\\\""
  else if n = 92 then "\\\\"
  else if n = 8 then "\\b"
  else if n = 12 then "\\f"
  else if n = 10 then "\\n"
  else if n = 13 then "\\r"
  else if n = 9 then "\\t"
  else if n < 32 then "\\u00" ++ String.mk [hexDigit (n / 16), hexDigit (n % 16)]
  else if n = 60 then "\\u003c"
  else if n = 62 then "\\u003e"
  else if n = 38 then "\\u0026"
  else if n = 8232 then "\\u2028"
  else if n = 8233 then "\\u2029"
  else String.mk [c]

/-- A JSON string literal: the escaped characters between double quotes. -/
def quote (s : String) : String :=
  "\"" ++ String.join (s.data.map escapeRune) ++ "\""

mutual
/-- The compact text of a JSON tree, as `encoding/json` writes it: no white space,
members and elements separated by commas. -/
def JSON.render : JSON → String
  | .null => "null"
  | .bool b => if b then "true" else "false"
  | .num text => text
  | .str s => quote s
  | .arr xs => "[" ++ JSON.renderElems xs ++ "]"
  | .obj members => "\x7b" ++ JSON.renderMembers members ++ "\x7d"
/-- The elements of an array, separated by commas. -/
def JSON.renderElems : List JSON → String
  | [] => ""
  | [x] => x.render
  | x :: y :: xs => x.render ++ "," ++ JSON.renderElems (y :: xs)
/-- The members of an object, separated by commas. -/
def JSON.renderMembers : List (String × JSON) → String
  | [] => ""
  | [(k, v)] => quote k ++ ":" ++ v.render
  | (k, v) :: m :: ms => quote k ++ ":" ++ v.render ++ "," ++ JSON.renderMembers (m :: ms)
end

/-- Lexicographic order on character sequences by code point, which is the byte
order of their UTF-8 encodings. -/
def charsLt : List Char → List Char → Bool
  | _, [] => false
  | [], _ :: _ => true
  | a :: as, b :: bs =>
    if a.toNat < b.toNat then true
    else if b.toNat < a.toNat then false
    else charsLt as bs

/-- The order in which `encoding/json` sorts the keys of a map. -/
def keyLt (a b : String) : Bool := charsLt a.data b.data

/-- Insertion of a map entry into a list of entries sorted by key. -/
def insertEntry (e : String × JSON) : List (String × JSON) → List (String × JSON)
  | [] => [e]
  | x :: xs => if keyLt e.1 x.1 then e :: x :: xs else x :: insertEntry e xs

/-- The entries of a Go map in the order `encoding/json` writes them: sorted by key. -/
def sortEntries (es : List (String × JSON)) : List (String × JSON) :=
  es.foldr insertEntry []

/-! ## Values passed as `interface{}` (`response.go`) -/

/-- Meta of `response.go`: `TotalSize int32` has tag `json:"total_size,omitempty"`,
`NextPageToken string` has tag `json:"next_page_token"`. -/
structure Meta where
  TotalSize : Int
  NextPageToken : String
deriving DecidableEq, Repr

/-- The JSON of a `Meta`: `total_size` is left out when it is zero (`omitempty`),
`next_page_token` is always written. -/
def Meta.toJSON (m : Meta) : JSON :=
  .obj ((if m.TotalSize = 0 then [] else [("total_size", .num (toString m.TotalSize))])
    ++ [("next_page_token", .str m.NextPageToken)])

/-- Go values handed to the responders as `interface{}`.

* `nil` — the nil interface;
* `bool`, `number`, `str`, `slice`, `map` — `bool`, `float64`, `string`,
  `[]interface{}` and `map[string]interface{}`: the values `json.Unmarshal`
  stores into an `interface{}`; a number carries the text `encoding/json`
  writes for it;
* `meta` — a `rest.Meta`;
* `idJSON id` — the anonymous struct with the one field ``ID string `json:"id"` ``
  built by `RespondStatusCreated`;
* `response data meta` — a `rest.Response` (fields tagged `data` and `meta`);
* `unsupported` — a value of a type `encoding/json` refuses (a channel, a
  function, a complex number): marshalling it returns an error. -/
inductive GoValue where
  | nil : GoValue
  | bool (b : Bool) : GoValue
  | number (text : String) : GoValue
  | str (s : String) : GoValue
  | slice (xs : List GoValue) : GoValue
  | map (entries : List (String × GoValue)) : GoValue
  | meta (m : Meta) : GoValue
  | idJSON (id : String) : GoValue
  | response (data meta : GoValue) : GoValue
  | unsupported : GoValue
deriving Repr

mutual
/-- The JSON `encoding/json` produces for a value, `none` when it returns an
error.  A struct writes its fields in declaration order; a map writes its
entries sorted by key; an error anywhere inside fails the whole value. -/
def GoValue.toJSON : GoValue → Option JSON
  | .nil => some .null
  | .bool b => some (.bool b)
  | .number text => some (.num text)
  | .str s => some (.str s)
  | .slice xs => (GoValue.elemsToJSON xs).map JSON.arr
  | .map entries => (GoValue.entriesToJSON entries).map (fun ms => JSON.obj (sortEntries ms))
  | .meta m => some m.toJSON
  | .idJSON id => some (.obj [("id", .str id)])
  | .response dataVal metaVal =>
    match dataVal.toJSON, metaVal.toJSON with
    | some d, some m => some (.obj [("data", d), ("meta", m)])
    | _, _ => none
  | .unsupported => none
/-- The JSON of the elements of a slice. -/
def GoValue.elemsToJSON : List GoValue → Option (List JSON)
  | [] => some []
  | x :: xs =>
    match x.toJSON, GoValue.elemsToJSON xs with
    | some j, some js => some (j :: js)
    | _, _ => none
/-- The JSON of the entries of a map, in the order given. -/
def GoValue.entriesToJSON : List (String × GoValue) → Option (List (String × JSON))
  | [] => some []
  | (k, v) :: es =>
    match v.toJSON, GoValue.entriesToJSON es with
    | some j, some js => some ((k, j) :: js)
    | _, _ => none
end

/-- The call `json.Marshal(v)`: the bytes, or `none` for an error. -/
def jsonMarshal (v : GoValue) : Option String :=
  v.toJSON.map JSON.render

/-- ErrorPayload of `errors.go`: tags `json:"code,omitempty"`, `json:"message"`,
`json:"fields,omitempty"`. -/
structure ErrorPayload where
  Code : String
  Message : String
  Fields : List FieldError
deriving DecidableEq, Repr

/-- ErrorResponse of `errors.go`: the one field `Error *ErrorPayload` has tag
`json:"error"`; the pointer is the non-nil pointer `jsonError` builds. -/
structure ErrorResponse where
  Error : ErrorPayload
deriving DecidableEq, Repr

/-- The JSON of a `FieldError`: `description` is left out when empty. -/
def FieldError.toJSON (f : FieldError) : JSON :=
  .obj ([("field", .str f.Field)]
    ++ (if f.Description = "" then [] else [("description", .str f.Description)]))

/-- The JSON of an `ErrorPayload`: `code` is left out when empty, `fields` when
the slice has length zero. -/
def ErrorPayload.toJSON (p : ErrorPayload) : JSON :=
  .obj ((if p.Code = "" then [] else [("code", .str p.Code)])
    ++ [("message", .str p.Message)]
    ++ (if p.Fields.length = 0 then [] else [("fields", .arr (p.Fields.map FieldError.toJSON))]))

/-- The JSON of an `ErrorResponse`. -/
def ErrorResponse.toJSON (r : ErrorResponse) : JSON :=
  .obj [("error", r.Error.toJSON)]

/-! ## `http.ResponseWriter` -/

/-- One call on an `http.ResponseWriter`: `Header().Add(key, value)` (with the
key already in canonical form), `WriteHeader(status)`, `Write(body)`. -/
inductive Call where
  | headerAdd (key value : String) : Call
  | writeHeader (status : Int) : Call
  | write (body : String) : Call
deriving DecidableEq, Repr

/-- An `http.ResponseWriter`, as the calls made on it so far, oldest first. -/
abbrev ResponseWriter := List Call

/-- The bytes `textproto` accepts in a header field name. -/
def validHeaderFieldByte (c : Char) : Bool :=
  let n := c.toNat
  (48 ≤ n && n ≤ 57) || (65 ≤ n && n ≤ 90) || (97 ≤ n && n ≤ 122) ||
    [33, 35, 36, 37, 38, 39, 42, 43, 45, 46, 94, 95, 96, 124, 126].contains n

/-- The rewriting loop of `textproto.CanonicalMIMEHeaderKey`: a letter at the
start or after a hyphen becomes upper case, every other letter lower case. -/
def canonLoop : Bool → List Char → List Char
  | _, [] => []
  | upper, c :: cs =>
    let n := c.toNat
    let d : Char :=
      if upper && 97 ≤ n && n ≤ 122 then Char.ofNat (n - 32)
      else if !upper && 65 ≤ n && n ≤ 90 then Char.ofNat (n + 32)
      else c
    d :: canonLoop (d.toNat == 45) cs

/-- CanonicalMIMEHeaderKey of `net/textproto`, which `http.Header.Add` applies to
the key: a key with a byte that is not valid in a field name is kept as it is. -/
def canonicalMIMEHeaderKey (s : String) : String :=
  if s.data.all validHeaderFieldByte then String.mk (canonLoop true s.data) else s

/-- The call `w.Header().Add(key, value)`. -/
def ResponseWriter.headerAdd (w : ResponseWriter) (key value : String) : ResponseWriter :=
  w ++ [.headerAdd (canonicalMIMEHeaderKey key) value]

/-- The call `w.WriteHeader(status)`. -/
def ResponseWriter.writeHeader (w : ResponseWriter) (status : Int) : ResponseWriter :=
  w ++ [.writeHeader status]

/-- The call `w.Write(body)`. -/
def ResponseWriter.write (w : ResponseWriter) (body : String) : ResponseWriter :=
  w ++ [.write body]

/-- The status line a client receives: the argument of the first `WriteHeader`,
or 200 when a `Write` comes before any `WriteHeader`; `none` while neither has
been called. -/
def ResponseWriter.status : ResponseWriter → Option Int
  | [] => none
  | .writeHeader s :: _ => some s
  | .write _ :: _ => some 200
  | .headerAdd _ _ :: w => ResponseWriter.status w

/-- The body a client receives: the written chunks, in order. -/
def ResponseWriter.body : ResponseWriter → String
  | [] => ""
  | .write b :: w => b ++ ResponseWriter.body w
  | _ :: w => ResponseWriter.body w

/-- All statuses passed to `WriteHeader`, in call order. -/
def ResponseWriter.writeHeaderCalls : ResponseWriter → List Int
  | [] => []
  | .writeHeader s :: w => s :: ResponseWriter.writeHeaderCalls w
  | _ :: w => ResponseWriter.writeHeaderCalls w

/-- The call `json.NewEncoder(w).Encode(v)` for a value whose JSON is given:
one `Write` of the text followed by a newline; nothing is written when
marshalling fails (the error is only logged by the caller). -/
def encodeTo (w : ResponseWriter) (j : Option JSON) : ResponseWriter :=
  match j with
  | some t => w.write (t.render ++ "\n")
  | none => w

/-! ## Responders (`response.go`) -/

/-- Respond of `response.go`. -/
def Respond (w : ResponseWriter) (status : Int) (data : GoValue) : ResponseWriter :=
  let w := w.headerAdd "Content-Type" "application/json"
  let w := w.writeHeader status
  encodeTo w data.toJSON

/-- RespondWithResponse of `response.go`. -/
def RespondWithResponse (w : ResponseWriter) (status : Int) (data meta : GoValue) :
    ResponseWriter :=
  let res := GoValue.response data meta
  Respond w status res

/-- The constant `http.StatusCreated`. -/
def StatusCreated : Int := 201

/-- The constant `http.StatusNoContent`. -/
def StatusNoContent : Int := 204

/-- RespondStatusCreated of `response.go`. -/
def RespondStatusCreated (w : ResponseWriter) (id : String) : ResponseWriter :=
  let idJSON := GoValue.idJSON id
  RespondWithResponse w StatusCreated idJSON .nil

/-- RespondNoContent of `response.go`. -/
def RespondNoContent (w : ResponseWriter) : ResponseWriter :=
  let w := w.headerAdd "Content-Type" "application/json"
  w.writeHeader StatusNoContent

/-- Function jsonError of `response.go`: `WriteHeader` first, then the header, then
the encoded `ErrorResponse`. -/
def jsonError (w : ResponseWriter) (status : Int) (code msg : String)
    (fields : List FieldError) : ResponseWriter :=
  let w := w.writeHeader status
  let w := w.headerAdd "content-Type" "application/json"
  let err : ErrorResponse := { Error := { Code := code, Message := msg, Fields := fields } }
  encodeTo w (some err.toJSON)

/-- RespondJSONError of `response.go`. -/
def RespondJSONError (w : ResponseWriter) (err : GoError) : ResponseWriter :=
  let apiErr : Error :=
    match errorsAsAPIError err with
    | some e => e
    | none => Err500Default
  let (status, code, msg, fields) := apiErr.GetData
  jsonError w status code msg fields

/-- RespondWithProtoResponse of `response.go`.  The two library calls it makes on
the message are parameters: `protoMarshal` is `protojson.MarshalOptions.Marshal`
(with `EmitUnpopulated` and `UseProtoNames`), `jsonUnmarshal` is
`json.Unmarshal` into an `interface{}`; `none` is a returned error. -/
def RespondWithProtoResponse {M : Type} (protoMarshal : M → Option String)
    (jsonUnmarshal : String → Option GoValue)
    (w : ResponseWriter) (status : Int) (data : M) (meta : GoValue) : ResponseWriter :=
  let w := w.headerAdd "Content-Type" "application/json"
  match protoMarshal data with
  | none => w.writeHeader StatusInternalServerError
  | some jsonpb =>
    match jsonUnmarshal jsonpb with
    | none => w.writeHeader StatusInternalServerError
    | some dataMap =>
      let response := GoValue.map [("data", dataMap), ("meta", meta)]
      match jsonMarshal response with
      | none => w.writeHeader StatusInternalServerError
      | some responseJson =>
        let w := w.writeHeader status
        w.write responseJson

/-! ## Definitions used to state the properties -/

/-- The dynamic call of `GetData` on an `error` interface value: `none` when the
dynamic type does not implement `APIError`. -/
def GoError.GetData : GoError → Option (Int × String × String × List FieldError)
  | .api _ cause status code description fields =>
    some (Error.GetData
      { Err := cause, Status := status, Code := code, Description := description,
        Fields := fields })
  | _ => none

/-- An error wrapped in layers, outermost first: each layer has its own message,
unwraps to the previous value and does not implement `APIError`. -/
def wrapLayers (msgs : List String) (err : GoError) : GoError :=
  msgs.foldr GoError.wrap err

/-- The elements of a JSON array on the wire: the texts separated by commas. -/
def joinComma : List String → String
  | [] => ""
  | [x] => x
  | x :: y :: xs => x ++ "," ++ joinComma (y :: xs)

/-- The wire text of one field error, written out after the struct tags of
`FieldError` (`errors.go`, lines 16-19): the member `field`, then the member
`description` unless the description is empty. -/
def fieldErrorText (f : FieldError) : String :=
  "\x7b\"field\":" ++ quote f.Field ++
    (if f.Description = "" then "" else ",\"description\":" ++ quote f.Description) ++ "\x7d"

/-- The wire text of the envelope of a validation error, written out after the
struct tags of `ErrorResponse` and `ErrorPayload` (`errors.go`, lines 23-32):
the code `invalid_request`, the message `Invalid request`, then the member
`fields` with the field errors in their order unless there are none, and the
newline `json.Encoder` ends with. -/
def invalidRequestText (fs : List FieldError) : String :=
  "\x7b\"error\":\x7b\"code\":\"invalid_request\",\"message\":\"Invalid request\"" ++
    (if fs = [] then "" else ",\"fields\":[" ++ joinComma (fs.map fieldErrorText) ++ "]") ++
    "\x7d\x7d\n"

/-- The header call every responder of `response.go` makes. -/
def contentTypeJSON : Call := .headerAdd "Content-Type" "application/json"

mutual
/-- Whether a value is one `json.Unmarshal` can store into an `interface{}`: nil,
a `bool`, a number, a `string`, a `[]interface{}` or a `map[string]interface{}`
of such values. -/
def GoValue.isGeneric : GoValue → Bool
  | .nil => true
  | .bool _ => true
  | .number _ => true
  | .str _ => true
  | .slice xs => GoValue.allGeneric xs
  | .map entries => GoValue.entriesGeneric entries
  | .meta _ => false
  | .idJSON _ => false
  | .response _ _ => false
  | .unsupported => false
/-- Whether all elements of a slice are generic. -/
def GoValue.allGeneric : List GoValue → Bool
  | [] => true
  | x :: xs => x.isGeneric && GoValue.allGeneric xs
/-- Whether all values of a map are generic. -/
def GoValue.entriesGeneric : List (String × GoValue) → Bool
  | [] => true
  | (_, v) :: es => v.isGeneric && GoValue.entriesGeneric es
end

/-- A schema marshaller on two sample messages: the message `true` marshals to
the text of the object with the one member `x` equal to 1, the message `false`
makes the marshaller return an error. -/
def sampleProtoMarshal : Bool → Option String
  | true => some "\x7b\"x\":1\x7d"
  | false => none

/-- The behaviour of `json.Unmarshal` into an `interface{}` on the text of
`sampleProtoMarshal`: a map with the key `x` and the number 1. Any other text
is treated as a decoding error. -/
def sampleJSONUnmarshal (s : String) : Option GoValue :=
  if s = "\x7b\"x\":1\x7d" then some (.map [("x", .number "1")]) else none

/-- The header set a client receives from a writer that fixes its headers at the
first `WriteHeader` (or at the first `Write`, which implies `WriteHeader(200)`):
the `Header().Add` calls made before it, in order; `none` while nothing is
committed.  The writer starts with no headers. -/
def ResponseWriter.committedHeaders : ResponseWriter → Option (List (String × String))
  | [] => none
  | .writeHeader _ :: _ => some []
  | .write _ :: _ => some []
  | .headerAdd k v :: w => (ResponseWriter.committedHeaders w).map (fun hs => (k, v) :: hs)

end Rest

/-! ## Connection configuration (`database/postgres/db/config.go`) -/

namespace Db

/-- ConnectionConfig of `config.go`. -/
structure ConnectionConfig where
  Username : String
  Password : String
  Name : String
  Host : String
  Port : Int
  SSL : Bool
deriving DecidableEq, Repr

/-- The package variable `sslRootCert`; nothing in the package assigns to it. -/
def sslRootCert : String := "/etc/ssl/cert.pem"

/-- The bytes of the UTF-8 encoding of a code point. -/
def utf8Bytes (n : Nat) : List Nat :=
  if n < 128 then [n]
  else if n < 2048 then [192 + n / 64, 128 + n % 64]
  else if n < 65536 then [224 + n / 4096, 128 + (n / 64) % 64, 128 + n % 64]
  else [240 + n / 262144, 128 + (n / 4096) % 64, 128 + (n / 64) % 64, 128 + n % 64]

/-- Upper-case hexadecimal digit of a number below sixteen, from the table
`0123456789ABCDEF` of `net/url`. -/
def upperHexDigit (n : Nat) : Char :=
  if n < 10 then Char.ofNat (48 + n) else Char.ofNat (55 + n)

/-- The bytes `url.QueryEscape` leaves as they are: letters, digits, `-` (45),
`_` (95), `.` (46) and `~` (126). -/
def unreservedByte (n : Nat) : Bool :=
  (48 ≤ n && n ≤ 57) || (65 ≤ n && n ≤ 90) || (97 ≤ n && n ≤ 122) ||
    n == 45 || n == 95 || n == 46 || n == 126

/-- What `url.QueryEscape` writes for one byte: the byte itself when unreserved,
`+` for a space, `%XX` otherwise. -/
def escapeByte (n : Nat) : List Char :=
  if unreservedByte n then [Char.ofNat n]
  else if n = 32 then [Char.ofNat 43]
  else [Char.ofNat 37, upperHexDigit (n / 16), upperHexDigit (n % 16)]

/-- QueryEscape of `net/url`. -/
def QueryEscape (s : String) : String :=
  String.mk ((s.data.map (fun c => (utf8Bytes c.toNat).map escapeByte)).flatten.flatten)

/-- Itoa of `strconv`: the decimal text of an `int`. -/
def Itoa (n : Int) : String := toString n

/-- URLForConfig of `config.go`: the password is the only part inserted without
`url.QueryEscape`. -/
def URLForConfig (cc : ConnectionConfig) : String :=
  let sslMode : String := "disable"
  let sslMode : String := if cc.SSL then "verify-ca&sslrootcert=" ++ sslRootCert else sslMode
  "postgres://" ++ QueryEscape cc.Username ++ ":" ++ cc.Password ++ "@" ++
    QueryEscape cc.Host ++ ":" ++ QueryEscape (Itoa cc.Port) ++ "/" ++
    QueryEscape cc.Name ++ "?sslmode=" ++ sslMode

/-- An `slog.Attr` made by `slog.String`, `slog.Int` or `slog.Bool`. -/
inductive Attr where
  | string (key value : String) : Attr
  | int (key : String) (value : Int) : Attr
  | bool (key : String) (value : Bool) : Attr
deriving DecidableEq, Repr

/-- ConnectionConfig.LogValue of `config.go`.  The receiver is a pointer: the first
component is the configuration the pointer refers to when the method returns,
the second the attributes of the returned group.  `noPass := c` copies the
pointer, so `*noPass` is read after the assignment to `c.Password`. -/
def ConnectionConfig.LogValue (c : ConnectionConfig) : ConnectionConfig × List Attr :=
  let c : ConnectionConfig := { c with Password := "*******" }
  let noPass : ConnectionConfig := c
  (c, [.string "username" c.Username,
       .string "password" "*********",
       .string "database" c.Name,
       .string "host" c.Host,
       .int "port" c.Port,
       .bool "SSL" c.SSL,
       .string "URL" (URLForConfig noPass)])

end Db

namespace Rest

/-! ## Lemmas on `errors.As` and `errors.Is` -/

theorem errorsAsAPIError_none_of_chain (err : GoError)
    (h : ∀ e ∈ err.chain, e.implementsAPIError = false) : errorsAsAPIError err = none := by
  induction err with
  | nil => rfl
  | leaf msg => rfl
  | errNoRows => rfl
  | wrap msg inner ih =>
    simp only [errorsAsAPIError]
    apply ih
    intro e he
    exact h e (by simp [GoError.chain, he])
  | join a b iha ihb =>
    have ha : errorsAsAPIError a = none :=
      iha (fun e he => h e (by simp [GoError.chain, he]))
    have hb : errorsAsAPIError b = none :=
      ihb (fun e he => h e (by simp [GoError.chain, he]))
    simp [errorsAsAPIError, ha, hb]
  | pq addr code message => rfl
  | api isPtr cause status code description fields _ =>
    have := h (.api isPtr cause status code description fields) (by simp [GoError.chain])
    simp [GoError.implementsAPIError] at this

theorem errorsAsAPIError_wrapLayers (msgs : List String) (err : GoError) :
    errorsAsAPIError (wrapLayers msgs err) = errorsAsAPIError err := by
  induction msgs with
  | nil => rfl
  | cons m ms ih => simpa [wrapLayers, errorsAsAPIError] using ih

theorem errorsIs_pqPtr_lt (err : GoError) (a : Nat)
    (h : errorsIs err (.pqPtr a) = true) : a < err.freshAddr := by
  induction err with
  | nil => simp [errorsIs] at h
  | leaf msg => simp [errorsIs, GoError.sameAs] at h
  | errNoRows => simp [errorsIs, GoError.sameAs] at h
  | wrap msg inner ih =>
    simp only [errorsIs, GoError.sameAs, Bool.false_or] at h
    simpa [GoError.freshAddr] using ih h
  | join x y ihx ihy =>
    simp only [errorsIs, GoError.sameAs, Bool.false_or, Bool.or_eq_true] at h
    simp only [GoError.freshAddr]
    rcases h with h | h
    · exact lt_of_lt_of_le (ihx h) (le_max_left _ _)
    · exact lt_of_lt_of_le (ihy h) (le_max_right _ _)
  | pq addr code message =>
    simp only [errorsIs, GoError.sameAs, beq_iff_eq] at h
    simp [GoError.freshAddr, h]
  | api isPtr cause status code description fields _ =>
    simp [errorsIs, GoError.sameAs] at h

theorem errorsIs_fresh (err : GoError) : errorsIs err (.pqPtr err.freshAddr) = false := by
  cases h : errorsIs err (.pqPtr err.freshAddr) with
  | false => rfl
  | true => exact absurd (errorsIs_pqPtr_lt err _ h) (lt_irrefl _)

theorem isNotFound_eq_errorsIs (err : GoError) : IsNotFound err = errorsIs err .errNoRows := by
  simp [IsNotFound, errorsIs_fresh]

/-! ## Error fallback and field errors -/

/-- C1: for every error whose chain holds no value implementing `APIError` (the nil
error included), `RespondJSONError` calls `WriteHeader(500)` and writes the
envelope with code `generic_internal_server_error`, message
`Internal Server Error` and no fields, which are the fields of `Err500Default`;
what is written is one fixed text, so it does not depend on the error. -/
theorem respondJSONError_unrecognized (w : ResponseWriter) (err : GoError)
    (h : ∀ e ∈ err.chain, e.implementsAPIError = false) :
    RespondJSONError w err = w ++ [.writeHeader 500, contentTypeJSON,
      .write ("\x7b\"error\":\x7b\"code\":\"generic_internal_server_error\"," ++
        "\"message\":\"Internal Server Error\"\x7d\x7d\n")]
    ∧ (RespondJSONError [] err).status = some 500
    ∧ (RespondJSONError [] err).body =
        "\x7b\"error\":\x7b\"code\":\"generic_internal_server_error\"," ++
        "\"message\":\"Internal Server Error\"\x7d\x7d\n"
    ∧ Err500Default.GetData =
        (500, "generic_internal_server_error", "Internal Server Error", []) := by
  have hnone := errorsAsAPIError_none_of_chain err h
  have key : ∀ w : ResponseWriter, RespondJSONError w err = w ++ [.writeHeader 500,
      contentTypeJSON,
      .write ("\x7b\"error\":\x7b\"code\":\"generic_internal_server_error\"," ++
        "\"message\":\"Internal Server Error\"\x7d\x7d\n")] := by
    intro w
    simp only [RespondJSONError, hnone]
    show jsonError w 500 "generic_internal_server_error" "Internal Server Error" [] = _
    simp only [jsonError, encodeTo, ResponseWriter.write, ResponseWriter.headerAdd,
      ResponseWriter.writeHeader, List.append_assoc, List.singleton_append, contentTypeJSON]
    rfl
  refine ⟨key w, ?_, ?_, rfl⟩
  · rw [key []]; rfl
  · rw [key []]; rfl

/-- Witness of C1 on a wrapped plain error, whose chain has two values, none of
which implements `APIError`. -/
theorem respondJSONError_unrecognized_witness :
    (∀ e ∈ (GoError.wrap "load user" (.leaf "dial tcp 10.0.0.7:5432")).chain,
        e.implementsAPIError = false)
    ∧ (RespondJSONError [] (.wrap "load user" (.leaf "dial tcp 10.0.0.7:5432"))).status
        = some 500 :=
  ⟨by decide,
   (respondJSONError_unrecognized [] (.wrap "load user" (.leaf "dial tcp 10.0.0.7:5432"))
      (by decide)).2.1⟩

theorem FieldError.toJSON_injective : Function.Injective FieldError.toJSON := by
  intro a b h
  cases a with
  | mk fa da =>
    cases b with
    | mk fb db =>
      by_cases ha : da = "" <;> by_cases hb : db = "" <;>
        simp_all [FieldError.toJSON]

theorem fieldError_render (f : FieldError) :
    (FieldError.toJSON f).render = fieldErrorText f := by
  have h1 : quote "field" = "\"field\"" := by decide
  have h2 : quote "description" = "\"description\"" := by decide
  by_cases hd : f.Description = ""
  · simp only [FieldError.toJSON, hd, fieldErrorText, JSON.render, JSON.renderMembers, h1,
      if_true, List.append_nil]
    apply String.ext
    simp [String.data_append]
  · simp only [FieldError.toJSON, hd, fieldErrorText, JSON.render, JSON.renderMembers, h1, h2,
      if_false, List.singleton_append]
    apply String.ext
    simp [String.data_append]

theorem renderElems_fieldErrors (fs : List FieldError) :
    JSON.renderElems (fs.map FieldError.toJSON) = joinComma (fs.map fieldErrorText) := by
  induction fs with
  | nil => rfl
  | cons f gs ih =>
    cases gs with
    | nil => simp [JSON.renderElems, joinComma, fieldError_render]
    | cons g hs =>
      simp only [List.map_cons, JSON.renderElems, joinComma, fieldError_render] at ih ⊢
      rw [ih]

theorem invalidRequest_render (fs : List FieldError) :
    (ErrorResponse.toJSON
      { Error := { Code := "invalid_request", Message := "Invalid request",
                   Fields := fs } }).render ++ "\n" = invalidRequestText fs := by
  have h1 : quote "error" = "\"error\"" := by decide
  have h2 : quote "code" = "\"code\"" := by decide
  have h3 : quote "message" = "\"message\"" := by decide
  have h4 : quote "fields" = "\"fields\"" := by decide
  have h5 : quote "invalid_request" = "\"invalid_request\"" := by decide
  have h6 : quote "Invalid request" = "\"Invalid request\"" := by decide
  have hne : ¬ ("invalid_request" = "") := by decide
  by_cases hf : fs = []
  · subst hf
    decide
  · have hlen : ¬ (fs.length = 0) := by simpa [List.length_eq_zero] using hf
    simp only [ErrorResponse.toJSON, ErrorPayload.toJSON, hne, hlen, hf, invalidRequestText,
      JSON.render, JSON.renderMembers, renderElems_fieldErrors, h1, h2, h3, h4, h5, h6,
      if_false, List.singleton_append, List.cons_append, List.nil_append]
    apply String.ext
    simp [String.data_append]

/-- C2: for every field list and every stack of wrapping layers around
`FromFieldErrors fs`, `RespondJSONError` calls `WriteHeader(400)` and writes, in
one `Write`, the envelope with code `invalid_request`, message
`Invalid request` and the member `fields` holding one object per element of
`fs`, in the order of `fs`, each with its `field` and, unless empty, its
`description` (the member `fields` is left out when `fs` is empty). -/
theorem respondJSONError_fromFieldErrors (w : ResponseWriter) (fs : List FieldError)
    (msgs : List String) :
    RespondJSONError w (wrapLayers msgs (FromFieldErrors fs)) =
      w ++ [.writeHeader 400, contentTypeJSON, .write (invalidRequestText fs)]
    ∧ (RespondJSONError [] (wrapLayers msgs (FromFieldErrors fs))).status = some 400
    ∧ (RespondJSONError [] (wrapLayers msgs (FromFieldErrors fs))).body
        = invalidRequestText fs := by
  have has : errorsAsAPIError (wrapLayers msgs (FromFieldErrors fs)) =
      some { Err := .nil, Status := 400, Code := "invalid_request",
             Description := "Invalid request", Fields := fs } := by
    rw [errorsAsAPIError_wrapLayers]; rfl
  have key : ∀ w : ResponseWriter,
      RespondJSONError w (wrapLayers msgs (FromFieldErrors fs)) =
      w ++ [.writeHeader 400, contentTypeJSON, .write (invalidRequestText fs)] := by
    intro w
    have hc : canonicalMIMEHeaderKey "content-Type" = "Content-Type" := by decide
    simp only [RespondJSONError, has, Error.GetData, jsonError, encodeTo,
      ResponseWriter.write, ResponseWriter.headerAdd, ResponseWriter.writeHeader,
      List.append_assoc, List.singleton_append, contentTypeJSON, hc, invalidRequest_render]
    rfl
  refine ⟨key w, ?_, ?_⟩
  · rw [key []]; rfl
  · rw [key []]
    simp [ResponseWriter.body, contentTypeJSON]

/-- Witness of C2: two field errors under two wrapping layers give status 400 and
these bytes, with both objects in order, the second without a description and
with its quote and angle bracket escaped; no field errors give the envelope
without the member `fields`. -/
theorem respondJSONError_fromFieldErrors_witness :
    RespondJSONError [] (wrapLayers ["handler", "service"]
        (FromFieldErrors [⟨"email", "Invalid field, failed validation check: required"⟩,
          ⟨"a\"<b", ""⟩]))
      = [.writeHeader 400, .headerAdd "Content-Type" "application/json",
         .write ("\x7b\"error\":\x7b\"code\":\"invalid_request\"," ++
           "\"message\":\"Invalid request\"," ++
           "\"fields\":[\x7b\"field\":\"email\"," ++
           "\"description\":\"Invalid field, failed validation check: required\"\x7d," ++
           "\x7b\"field\":\"a\\\"\\u003cb\"\x7d]\x7d\x7d\n")]
    ∧ (RespondJSONError [] (wrapLayers ["handler"] (FromFieldErrors []))).body
      = "\x7b\"error\":\x7b\"code\":\"invalid_request\"," ++
          "\"message\":\"Invalid request\"\x7d\x7d\n" :=
  ⟨(respondJSONError_fromFieldErrors []
      [⟨"email", "Invalid field, failed validation check: required"⟩, ⟨"a\"<b", ""⟩]
      ["handler", "service"]).1.trans (by rfl),
   (respondJSONError_fromFieldErrors [] [] ["handler"]).2.2.trans (by rfl)⟩

/-- C3: `GetData` returns what the constructors stored: for
`NewRequestError(cause, status, code, msg)` (as a struct, and as the `*Error`
held in an `error`) the triple with an empty field list, whatever the cause, and
for `FromFieldErrors(fs)` the fixed 400 / `invalid_request` / `Invalid request`
with `fs`. -/
theorem getData_roundtrip (cause : GoError) (status : Int) (code msg : String)
    (fs : List FieldError) :
    (NewRequestError cause status code msg).GetData = (status, code, msg, [])
    ∧ (NewRequestError cause status code msg).toPtrError.GetData
        = some (status, code, msg, [])
    ∧ (FromFieldErrors fs).GetData = some (400, "invalid_request", "Invalid request", fs) :=
  ⟨rfl, rfl, rfl⟩

/-! ## Classifiers -/

/-- C4 (what the code does): `IsNotFound` is exactly `errors.Is(err, sql.ErrNoRows)`;
the branch for the code `20000` is never taken, so a `*pq.Error` with that code
is reported as not "not found", like a validation error and like nil, while the
sentinel, bare or wrapped, is reported as "not found". -/
theorem isNotFound_pq_no_data_code (addr : Nat) (message : String) :
    IsNotFound (.pq addr "20000" message) = false
    ∧ (∀ err : GoError, IsNotFound err = errorsIs err .errNoRows)
    ∧ IsNotFound .errNoRows = true
    ∧ (∀ m : String, IsNotFound (.wrap m .errNoRows) = true)
    ∧ (∀ fs : List FieldError, IsNotFound (FromFieldErrors fs) = false)
    ∧ IsNotFound .nil = false := by
  refine ⟨?_, isNotFound_eq_errorsIs, ?_, ?_, ?_, ?_⟩
  · rw [isNotFound_eq_errorsIs]; rfl
  · rw [isNotFound_eq_errorsIs]; rfl
  · intro m; rw [isNotFound_eq_errorsIs]; rfl
  · intro fs; rw [isNotFound_eq_errorsIs]; rfl
  · rw [isNotFound_eq_errorsIs]; rfl

/-- C5 (counterexample): on the nil `*pq.Error` held in a non-nil `error` the type
assertion succeeds and reading `Code` panics: the function does not return
false there, it does not return at all. -/
theorem isAlreadyExists_nil_pq_pointer :
    IsAlreadyExists .nilPqPointer = none
    ∧ IsAlreadyExists .nilPqPointer ≠ some false := by
  decide

/-- C5 (amended): for every error other than a nil `*pq.Error` pointer,
`IsAlreadyExists` returns, and returns true exactly for a `*pq.Error` whose code
is `23505`; it returns false for nil, for a `*pq.Error` with another code, for
an error that is not a `*pq.Error`, and for an error that only wraps such a
`*pq.Error`. -/
theorem isAlreadyExists_iff (err : GoError) :
    (IsAlreadyExists (.val err) = some true ↔
        ∃ addr message, err = .pq addr "23505" message)
    ∧ (IsAlreadyExists (.val err) = some true ∨ IsAlreadyExists (.val err) = some false)
    ∧ IsAlreadyExists (.val .nil) = some false
    ∧ (∀ addr code message, code ≠ "23505" →
        IsAlreadyExists (.val (.pq addr code message)) = some false)
    ∧ (∀ e : GoError, (∀ addr code message, e ≠ .pq addr code message) →
        IsAlreadyExists (.val e) = some false)
    ∧ (∀ m addr message, IsAlreadyExists (.val (.wrap m (.pq addr "23505" message)))
        = some false) := by
  refine ⟨?_, ?_, rfl, ?_, ?_, fun _ _ _ => rfl⟩
  · cases err <;> simp [IsAlreadyExists]
  · cases err <;> simp [IsAlreadyExists]
    rename_i addr code message
    by_cases hc : code = "23505" <;> simp [hc]
  · intro addr code message hc
    simp [IsAlreadyExists, hc]
  · intro e he
    cases e <;> simp_all [IsAlreadyExists]

/-- Witness of C5 (amended): a unique violation is reported, a foreign-key
violation (code `23503`) and a plain error are not. -/
theorem isAlreadyExists_iff_witness :
    IsAlreadyExists (.val (.pq 7 "23505" "duplicate key value")) = some true
    ∧ IsAlreadyExists (.val (.pq 7 "23503" "violates foreign key constraint")) = some false
    ∧ IsAlreadyExists (.val (.leaf "connection refused")) = some false :=
  ⟨(isAlreadyExists_iff (.pq 7 "23505" "duplicate key value")).1.mpr ⟨7, _, rfl⟩,
   (isAlreadyExists_iff .nil).2.2.2.1 7 "23503" "violates foreign key constraint" (by decide),
   (isAlreadyExists_iff .nil).2.2.2.2.1 (.leaf "connection refused")
      (fun _ _ _ h => GoError.noConfusion h)⟩

/-! ## The cause never reaches the client -/

/-- C7: two `Error` values with the same `Status`, `Code`, `Description` and
`Fields` make `RespondJSONError` perform the same calls with the same bytes,
whatever their causes are, both when passed as values and as pointers. -/
theorem respondJSONError_cause_independent (w : ResponseWriter) (e₁ e₂ : Error)
    (hs : e₁.Status = e₂.Status) (hc : e₁.Code = e₂.Code)
    (hd : e₁.Description = e₂.Description) (hf : e₁.Fields = e₂.Fields) :
    RespondJSONError w e₁.toError = RespondJSONError w e₂.toError
    ∧ RespondJSONError w e₁.toPtrError = RespondJSONError w e₂.toPtrError
    ∧ RespondJSONError w e₁.toError = jsonError w e₂.Status e₂.Code e₂.Description e₂.Fields := by
  simp [RespondJSONError, Error.toError, Error.toPtrError, errorsAsAPIError, Error.GetData,
    hs, hc, hd, hf]

/-- Witness of C7: a 404 error with a driver message as cause and the same error
without a cause. -/
theorem respondJSONError_cause_independent_witness :
    RespondJSONError []
        (Error.toError ⟨.leaf "pq: password authentication failed", 404, "c", "d", []⟩)
      = RespondJSONError [] (Error.toError ⟨.nil, 404, "c", "d", []⟩) :=
  (respondJSONError_cause_independent []
    ⟨.leaf "pq: password authentication failed", 404, "c", "d", []⟩ ⟨.nil, 404, "c", "d", []⟩
    rfl rfl rfl rfl).1

/-! ## Success envelopes -/

mutual
theorem GoValue.toJSON_isSome_of_isGeneric :
    ∀ v : GoValue, v.isGeneric = true → v.toJSON.isSome = true
  | .nil, _ => rfl
  | .bool _, _ => rfl
  | .number _, _ => rfl
  | .str _, _ => rfl
  | .slice xs, h => by
    have := GoValue.elemsToJSON_isSome_of_allGeneric xs (by simpa [GoValue.isGeneric] using h)
    simpa [GoValue.toJSON] using this
  | .map entries, h => by
    have := GoValue.entriesToJSON_isSome_of_entriesGeneric entries
      (by simpa [GoValue.isGeneric] using h)
    simpa [GoValue.toJSON] using this
  | .meta _, h => by simp [GoValue.isGeneric] at h
  | .idJSON _, h => by simp [GoValue.isGeneric] at h
  | .response _ _, h => by simp [GoValue.isGeneric] at h
  | .unsupported, h => by simp [GoValue.isGeneric] at h
theorem GoValue.elemsToJSON_isSome_of_allGeneric :
    ∀ xs : List GoValue, GoValue.allGeneric xs = true → (GoValue.elemsToJSON xs).isSome = true
  | [], _ => rfl
  | x :: xs, h => by
    simp only [GoValue.allGeneric, Bool.and_eq_true] at h
    have h₁ := GoValue.toJSON_isSome_of_isGeneric x h.1
    have h₂ := GoValue.elemsToJSON_isSome_of_allGeneric xs h.2
    obtain ⟨j, hj⟩ := Option.isSome_iff_exists.mp h₁
    obtain ⟨js, hjs⟩ := Option.isSome_iff_exists.mp h₂
    simp [GoValue.elemsToJSON, hj, hjs]
theorem GoValue.entriesToJSON_isSome_of_entriesGeneric :
    ∀ es : List (String × GoValue), GoValue.entriesGeneric es = true →
      (GoValue.entriesToJSON es).isSome = true
  | [], _ => rfl
  | (k, v) :: es, h => by
    simp only [GoValue.entriesGeneric, Bool.and_eq_true] at h
    have h₁ := GoValue.toJSON_isSome_of_isGeneric v h.1
    have h₂ := GoValue.entriesToJSON_isSome_of_entriesGeneric es h.2
    obtain ⟨j, hj⟩ := Option.isSome_iff_exists.mp h₁
    obtain ⟨js, hjs⟩ := Option.isSome_iff_exists.mp h₂
    simp [GoValue.entriesToJSON, hj, hjs]
end

theorem sortEntries_data_meta (d m : JSON) :
    sortEntries [("data", d), ("meta", m)] = [("data", d), ("meta", m)] := by
  have h : keyLt "data" "meta" = true := by decide
  simp [sortEntries, insertEntry, h]

theorem jsonMarshal_envelope_map (v meta : GoValue) :
    jsonMarshal (.map [("data", v), ("meta", meta)]) =
      match v.toJSON, meta.toJSON with
      | some d, some m => some (JSON.obj [("data", d), ("meta", m)]).render
      | _, _ => none := by
  cases hv : v.toJSON <;> cases hm : meta.toJSON <;>
    simp [jsonMarshal, GoValue.toJSON, GoValue.entriesToJSON, hv, hm, sortEntries_data_meta]

theorem respondWithResponse_calls (w : ResponseWriter) (status : Int) (data meta : GoValue) :
    RespondWithResponse w status data meta =
      match data.toJSON, meta.toJSON with
      | some d, some m => w ++ [contentTypeJSON, .writeHeader status,
          .write ((JSON.obj [("data", d), ("meta", m)]).render ++ "\n")]
      | _, _ => w ++ [contentTypeJSON, .writeHeader status] := by
  have hc : canonicalMIMEHeaderKey "Content-Type" = "Content-Type" := by decide
  cases hd : data.toJSON <;> cases hm : meta.toJSON <;>
    simp [RespondWithResponse, Respond, encodeTo, GoValue.toJSON, hd, hm, hc,
      ResponseWriter.write, ResponseWriter.headerAdd, ResponseWriter.writeHeader,
      contentTypeJSON]

theorem respondWithProtoResponse_calls {M : Type} (protoMarshal : M → Option String)
    (jsonUnmarshal : String → Option GoValue) (w : ResponseWriter) (status : Int)
    (data : M) (meta : GoValue) :
    RespondWithProtoResponse protoMarshal jsonUnmarshal w status data meta =
      match (protoMarshal data).bind (fun b => (jsonUnmarshal b).bind (fun v =>
          jsonMarshal (.map [("data", v), ("meta", meta)]))) with
      | some js => w ++ [contentTypeJSON, .writeHeader status, .write js]
      | none => w ++ [contentTypeJSON, .writeHeader 500] := by
  have hc : canonicalMIMEHeaderKey "Content-Type" = "Content-Type" := by decide
  unfold RespondWithProtoResponse
  cases hb : protoMarshal data with
  | none =>
    simp [hc, ResponseWriter.headerAdd, ResponseWriter.writeHeader, contentTypeJSON,
      StatusInternalServerError]
  | some b =>
    cases hv : jsonUnmarshal b with
    | none =>
      simp [hc, hv, ResponseWriter.headerAdd, ResponseWriter.writeHeader, contentTypeJSON,
        StatusInternalServerError]
    | some v =>
      cases hj : jsonMarshal (.map [("data", v), ("meta", meta)]) with
      | none =>
        simp [hc, hv, hj, ResponseWriter.headerAdd, ResponseWriter.writeHeader,
          contentTypeJSON, StatusInternalServerError]
      | some js =>
        simp [hc, hv, hj, ResponseWriter.headerAdd, ResponseWriter.writeHeader,
          ResponseWriter.write, contentTypeJSON]

/-- C6 (counterexample): for status 200, the message whose schema JSON is the object
with `x` equal to 1, and a nil meta, `RespondWithProtoResponse` writes the
envelope and `RespondWithResponse` writes the envelope followed by a newline:
the two bodies are not the same bytes. -/
theorem respond_bodies_differ :
    (RespondWithProtoResponse sampleProtoMarshal sampleJSONUnmarshal [] 200 true .nil).body
      = "\x7b\"data\":\x7b\"x\":1\x7d,\"meta\":null\x7d"
    ∧ (RespondWithResponse [] 200 (.map [("x", .number "1")]) .nil).body
      = "\x7b\"data\":\x7b\"x\":1\x7d,\"meta\":null\x7d\n"
    ∧ (RespondWithProtoResponse sampleProtoMarshal sampleJSONUnmarshal [] 200 true .nil).body
      ≠ (RespondWithResponse [] 200 (.map [("x", .number "1")]) .nil).body := by
  decide

/-- C6 (amended): when the schema JSON of the message decodes to the generic value
`v` and `encoding/json` can marshal `meta`, both responders add the same
header and write the same status, `RespondWithProtoResponse` writes the envelope
of `v` and `meta`, and `RespondWithResponse` applied to `v` writes the same
envelope followed by one newline. -/
theorem respondWithProtoResponse_vs_respondWithResponse {M : Type}
    (protoMarshal : M → Option String) (jsonUnmarshal : String → Option GoValue)
    (w : ResponseWriter) (status : Int) (data : M) (meta : GoValue)
    (b : String) (v : GoValue) (m : JSON)
    (hb : protoMarshal data = some b) (hv : jsonUnmarshal b = some v)
    (hg : v.isGeneric = true) (hm : meta.toJSON = some m) :
    ∃ d : JSON, v.toJSON = some d
      ∧ RespondWithProtoResponse protoMarshal jsonUnmarshal w status data meta =
          w ++ [contentTypeJSON, .writeHeader status,
            .write (JSON.obj [("data", d), ("meta", m)]).render]
      ∧ RespondWithResponse w status v meta =
          w ++ [contentTypeJSON, .writeHeader status,
            .write ((JSON.obj [("data", d), ("meta", m)]).render ++ "\n")] := by
  obtain ⟨d, hd⟩ := Option.isSome_iff_exists.mp (GoValue.toJSON_isSome_of_isGeneric v hg)
  refine ⟨d, hd, ?_, ?_⟩
  · rw [respondWithProtoResponse_calls]
    simp [hb, hv, jsonMarshal_envelope_map, hd, hm]
  · rw [respondWithResponse_calls]
    simp [hd, hm]

/-- Witness of C6 (amended): status 200, the sample message, nil meta. -/
theorem respondWithProtoResponse_vs_respondWithResponse_witness :
    ∃ d : JSON, (GoValue.map [("x", .number "1")]).toJSON = some d
      ∧ RespondWithProtoResponse sampleProtoMarshal sampleJSONUnmarshal [] 200 true .nil =
          [] ++ [contentTypeJSON, .writeHeader 200,
            .write (JSON.obj [("data", d), ("meta", .null)]).render]
      ∧ RespondWithResponse [] 200 (.map [("x", .number "1")]) .nil =
          [] ++ [contentTypeJSON, .writeHeader 200,
            .write ((JSON.obj [("data", d), ("meta", .null)]).render ++ "\n")] :=
  respondWithProtoResponse_vs_respondWithResponse sampleProtoMarshal sampleJSONUnmarshal
    [] 200 true .nil "\x7b\"x\":1\x7d" (.map [("x", .number "1")]) .null rfl rfl rfl rfl

/-- C8 (counterexample): with nil data and the zero `Meta`, the body written is the
envelope whose `meta` object has the single member `next_page_token`; it is not
the envelope with a `total_size` member. -/
theorem zero_meta_omits_total_size :
    (RespondWithResponse [] 200 .nil (.meta ⟨0, ""⟩)).body
      = "\x7b\"data\":null,\"meta\":\x7b\"next_page_token\":\"\"\x7d\x7d\n"
    ∧ (RespondWithResponse [] 200 .nil (.meta ⟨0, ""⟩)).body
      ≠ "\x7b\"data\":null,\"meta\":\x7b\"total_size\":0,\"next_page_token\":\"\"\x7d\x7d\n" := by
  decide

/-- C8 (amended): for the zero `Meta` and every data value `encoding/json` can
marshal, `RespondWithResponse` writes the success envelope whose `meta` member
is the object with the single member `next_page_token` (empty string):
`next_page_token` is written even when empty, `total_size` is left out when
zero. -/
theorem respondWithResponse_zero_meta (w : ResponseWriter) (status : Int) (data : GoValue)
    (d : JSON) (hd : data.toJSON = some d) :
    RespondWithResponse w status data (.meta { TotalSize := 0, NextPageToken := "" }) =
      w ++ [contentTypeJSON, .writeHeader status,
        .write ((JSON.obj [("data", d),
          ("meta", .obj [("next_page_token", .str "")])]).render ++ "\n")] := by
  rw [respondWithResponse_calls]
  simp [hd, GoValue.toJSON, Meta.toJSON]

/-- Witness of C8 (amended): status 200 and a one-member map as data. -/
theorem respondWithResponse_zero_meta_witness :
    RespondWithResponse [] 200 (.map [("x", .number "1")]) (.meta ⟨0, ""⟩) =
      [] ++ [contentTypeJSON, .writeHeader 200,
        .write ((JSON.obj [("data", .obj [("x", .num "1")]),
          ("meta", .obj [("next_page_token", .str "")])]).render ++ "\n")] :=
  respondWithResponse_zero_meta [] 200 (.map [("x", .number "1")])
    (.obj [("x", .num "1")]) rfl

/-! ## Failure stages of the schema responder -/

/-- C9: if the schema marshalling of the message, the decoding of its JSON, or the
marshalling of the data/meta envelope fails, `RespondWithProtoResponse` makes
exactly one `WriteHeader` call, with 500, and no `Write` call (so a requested
status other than 500 is never written); if all three succeed it makes exactly
one `WriteHeader` call, with the requested status, followed by one `Write` of
the envelope. -/
theorem respondWithProtoResponse_stages {M : Type} (protoMarshal : M → Option String)
    (jsonUnmarshal : String → Option GoValue) (w : ResponseWriter) (status : Int)
    (data : M) (meta : GoValue) :
    ((protoMarshal data = none
        ∨ (∃ b, protoMarshal data = some b ∧ jsonUnmarshal b = none)
        ∨ (∃ b v, protoMarshal data = some b ∧ jsonUnmarshal b = some v
            ∧ jsonMarshal (.map [("data", v), ("meta", meta)]) = none)) →
      RespondWithProtoResponse protoMarshal jsonUnmarshal w status data meta
          = w ++ [contentTypeJSON, .writeHeader 500]
        ∧ (RespondWithProtoResponse protoMarshal jsonUnmarshal [] status data meta).status
          = some 500
        ∧ (RespondWithProtoResponse protoMarshal jsonUnmarshal [] status data meta).body = ""
        ∧ (RespondWithProtoResponse protoMarshal jsonUnmarshal [] status data
            meta).writeHeaderCalls = [500]
        ∧ (status ≠ 500 → status ∉
            (RespondWithProtoResponse protoMarshal jsonUnmarshal [] status data
              meta).writeHeaderCalls))
    ∧ (∀ b v js, protoMarshal data = some b → jsonUnmarshal b = some v →
        jsonMarshal (.map [("data", v), ("meta", meta)]) = some js →
      RespondWithProtoResponse protoMarshal jsonUnmarshal w status data meta
          = w ++ [contentTypeJSON, .writeHeader status, .write js]
        ∧ (RespondWithProtoResponse protoMarshal jsonUnmarshal [] status data meta).status
          = some status
        ∧ (RespondWithProtoResponse protoMarshal jsonUnmarshal [] status data
            meta).writeHeaderCalls = [status]
        ∧ (RespondWithProtoResponse protoMarshal jsonUnmarshal [] status data meta).body
          = js) := by
  constructor
  · intro hfail
    have hnone : (protoMarshal data).bind (fun b => (jsonUnmarshal b).bind (fun v =>
        jsonMarshal (.map [("data", v), ("meta", meta)]))) = none := by
      rcases hfail with h | ⟨b, hb, hv⟩ | ⟨b, v, hb, hv, hj⟩
      · simp [h]
      · simp [hb, hv]
      · simp [hb, hv, hj]
    have key : ∀ w : ResponseWriter,
        RespondWithProtoResponse protoMarshal jsonUnmarshal w status data meta
          = w ++ [contentTypeJSON, .writeHeader 500] := by
      intro w
      rw [respondWithProtoResponse_calls, hnone]
    refine ⟨key w, ?_, ?_, ?_, ?_⟩
    · rw [key []]; rfl
    · rw [key []]; rfl
    · rw [key []]; rfl
    · intro hne
      rw [key []]
      simpa [ResponseWriter.writeHeaderCalls, contentTypeJSON] using hne
  · intro b v js hb hv hj
    have hsome : (protoMarshal data).bind (fun b => (jsonUnmarshal b).bind (fun v =>
        jsonMarshal (.map [("data", v), ("meta", meta)]))) = some js := by
      simp [hb, hv, hj]
    have key : ∀ w : ResponseWriter,
        RespondWithProtoResponse protoMarshal jsonUnmarshal w status data meta
          = w ++ [contentTypeJSON, .writeHeader status, .write js] := by
      intro w
      rw [respondWithProtoResponse_calls, hsome]
    refine ⟨key w, ?_, ?_, ?_⟩
    · rw [key []]; rfl
    · rw [key []]; rfl
    · rw [key []]
      simp [ResponseWriter.body, contentTypeJSON]

/-- Witness of C9: with requested status 200, the sample message that does not
marshal gives the single call `WriteHeader(500)` and an empty body, and the
sample message that marshals gives status 200 and the envelope. -/
theorem respondWithProtoResponse_stages_witness :
    (RespondWithProtoResponse sampleProtoMarshal sampleJSONUnmarshal [] 200 false
        .nil).writeHeaderCalls = [500]
    ∧ (RespondWithProtoResponse sampleProtoMarshal sampleJSONUnmarshal [] 200 false
        .nil).body = ""
    ∧ (RespondWithProtoResponse sampleProtoMarshal sampleJSONUnmarshal [] 200 true
        .nil).writeHeaderCalls = [200]
    ∧ (RespondWithProtoResponse sampleProtoMarshal sampleJSONUnmarshal [] 200 true
        .nil).body = "\x7b\"data\":\x7b\"x\":1\x7d,\"meta\":null\x7d" :=
  ⟨((respondWithProtoResponse_stages sampleProtoMarshal sampleJSONUnmarshal [] 200 false
      .nil).1 (Or.inl rfl)).2.2.2.1,
   ((respondWithProtoResponse_stages sampleProtoMarshal sampleJSONUnmarshal [] 200 false
      .nil).1 (Or.inl rfl)).2.2.1,
   ((respondWithProtoResponse_stages sampleProtoMarshal sampleJSONUnmarshal [] 200 true
      .nil).2 "\x7b\"x\":1\x7d" (.map [("x", .number "1")])
      "\x7b\"data\":\x7b\"x\":1\x7d,\"meta\":null\x7d" rfl rfl (by decide)).2.2.1,
   ((respondWithProtoResponse_stages sampleProtoMarshal sampleJSONUnmarshal [] 200 true
      .nil).2 "\x7b\"x\":1\x7d" (.map [("x", .number "1")])
      "\x7b\"data\":\x7b\"x\":1\x7d,\"meta\":null\x7d" rfl rfl (by decide)).2.2.2⟩

/-! ## Diagnostic text -/

theorem colon_append_ne_empty (s : String) : ": " ++ s ≠ "" := by
  intro h
  have hlen := congrArg String.length h
  simp only [String.length_append] at hlen
  have h2 : ": ".length = 2 := by decide
  have h0 : "".length = 0 := by decide
  omega

/-- C10: the text of `Error()` is `http status = <Status>, publicMsg = <Description>`,
followed by `, code = <Code>` exactly when `Code` is not empty, then by
`, fields = <Fields>` (the `%v` rendering) exactly when `Fields` is not empty,
then by `: ` and the message of the cause exactly when `Err` is not nil; with an
empty code, no fields and no cause it is the first part alone. -/
theorem error_text (er : Error) :
    er.Error =
      "http status = " ++ toString er.Status ++ ", publicMsg = " ++ er.Description
        ++ (if er.Code ≠ "" then ", code = " ++ er.Code else "")
        ++ (if er.Fields ≠ [] then ", fields = " ++ fmtFields er.Fields else "")
        ++ (if er.Err ≠ .nil then ": " ++ er.Err.Error else "")
    ∧ (∀ (status : Int) (description : String),
        Error.Error { Err := .nil, Status := status, Code := "", Description := description,
                      Fields := [] }
          = "http status = " ++ toString status ++ ", publicMsg = " ++ description) := by
  constructor
  · cases er with
    | mk cause status code description fields =>
      by_cases hcode : code = "" <;> by_cases hf : fields = [] <;>
        by_cases hcause : cause = .nil <;>
        simp [Error.Error, Error.toError, GoError.Error, hcode, hf, hcause,
          colon_append_ne_empty, String.append_assoc, List.length_pos]
  · intro status description
    simp [Error.Error, Error.toError, GoError.Error]

/-! ## Order of `WriteHeader` and the `Content-Type` header -/

theorem jsonError_calls (w : ResponseWriter) (status : Int) (code msg : String)
    (fields : List FieldError) :
    jsonError w status code msg fields =
      w ++ [.writeHeader status, contentTypeJSON,
        .write ((ErrorResponse.toJSON
          { Error := { Code := code, Message := msg, Fields := fields } }).render ++ "\n")] := by
  have hc : canonicalMIMEHeaderKey "content-Type" = "Content-Type" := by decide
  simp [jsonError, encodeTo, ResponseWriter.write, ResponseWriter.headerAdd,
    ResponseWriter.writeHeader, contentTypeJSON, hc]

theorem respond_calls (w : ResponseWriter) (status : Int) (data : GoValue) :
    Respond w status data =
      w ++ contentTypeJSON :: .writeHeader status ::
        (match data.toJSON with
         | some t => [.write (t.render ++ "\n")]
         | none => []) := by
  have hc : canonicalMIMEHeaderKey "Content-Type" = "Content-Type" := by decide
  cases hd : data.toJSON <;>
    simp [Respond, encodeTo, hd, hc, ResponseWriter.write, ResponseWriter.headerAdd,
      ResponseWriter.writeHeader, contentTypeJSON]

/-- C11: `jsonError`, and with it `RespondJSONError` on every error, calls
`WriteHeader` first and adds `Content-Type` after it, while `Respond`,
`RespondNoContent` and `RespondWithProtoResponse` add `Content-Type` first and
call `WriteHeader` after it; so on a writer that starts with no headers and
fixes them at `WriteHeader`, the committed header set of an error response is
empty (no `Content-Type: application/json`) and that of each success responder
is exactly `Content-Type: application/json`. -/
theorem contentType_order (w : ResponseWriter) (status : Int) (code msg : String)
    (fields : List FieldError) :
    (∃ rest, jsonError w status code msg fields
        = w ++ .writeHeader status :: contentTypeJSON :: rest)
    ∧ (∀ err : GoError, ∃ st rest,
        RespondJSONError w err = w ++ .writeHeader st :: contentTypeJSON :: rest)
    ∧ (∀ data : GoValue, ∃ rest,
        Respond w status data = w ++ contentTypeJSON :: .writeHeader status :: rest)
    ∧ RespondNoContent w = w ++ [contentTypeJSON, .writeHeader 204]
    ∧ (∀ (M : Type) (protoMarshal : M → Option String)
        (jsonUnmarshal : String → Option GoValue) (data : M) (meta : GoValue), ∃ st rest,
        RespondWithProtoResponse protoMarshal jsonUnmarshal w status data meta
          = w ++ contentTypeJSON :: .writeHeader st :: rest)
    ∧ (jsonError [] status code msg fields).committedHeaders = some []
    ∧ (∀ err : GoError, (RespondJSONError [] err).committedHeaders = some [])
    ∧ (∀ data : GoValue, (Respond [] status data).committedHeaders
        = some [("Content-Type", "application/json")])
    ∧ (∀ data meta : GoValue, (RespondWithResponse [] status data meta).committedHeaders
        = some [("Content-Type", "application/json")])
    ∧ (RespondNoContent []).committedHeaders = some [("Content-Type", "application/json")]
    ∧ (∀ (M : Type) (protoMarshal : M → Option String)
        (jsonUnmarshal : String → Option GoValue) (data : M) (meta : GoValue),
        (RespondWithProtoResponse protoMarshal jsonUnmarshal [] status data
          meta).committedHeaders = some [("Content-Type", "application/json")]) := by
  have hc : canonicalMIMEHeaderKey "Content-Type" = "Content-Type" := by decide
  have hje : ∀ (w : ResponseWriter) (err : GoError), ∃ st rest,
      RespondJSONError w err = w ++ .writeHeader st :: contentTypeJSON :: rest := by
    intro w err
    simp only [RespondJSONError]
    exact ⟨_, _, jsonError_calls w _ _ _ _⟩
  have hproto : ∀ (w : ResponseWriter) (M : Type) (protoMarshal : M → Option String)
      (jsonUnmarshal : String → Option GoValue) (data : M) (meta : GoValue), ∃ st rest,
      RespondWithProtoResponse protoMarshal jsonUnmarshal w status data meta
        = w ++ contentTypeJSON :: .writeHeader st :: rest := by
    intro w M protoMarshal jsonUnmarshal data meta
    rw [respondWithProtoResponse_calls]
    cases (protoMarshal data).bind (fun b => (jsonUnmarshal b).bind (fun v =>
        jsonMarshal (.map [("data", v), ("meta", meta)]))) with
    | none => exact ⟨500, [], rfl⟩
    | some js => exact ⟨status, [.write js], rfl⟩
  refine ⟨⟨_, jsonError_calls w status code msg fields⟩, hje w,
    fun data => ⟨_, respond_calls w status data⟩, ?_, hproto w, ?_, ?_, ?_, ?_, ?_, ?_⟩
  · simp [RespondNoContent, hc, ResponseWriter.headerAdd, ResponseWriter.writeHeader,
      contentTypeJSON, StatusNoContent]
  · rw [jsonError_calls]; rfl
  · intro err
    obtain ⟨st, rest, h⟩ := hje [] err
    rw [h]; rfl
  · intro data
    rw [respond_calls]; rfl
  · intro data meta
    simp only [RespondWithResponse]
    rw [respond_calls]; rfl
  · simp [RespondNoContent, hc, ResponseWriter.headerAdd, ResponseWriter.writeHeader,
      ResponseWriter.committedHeaders]
  · intro M protoMarshal jsonUnmarshal data meta
    obtain ⟨st, rest, h⟩ := hproto [] M protoMarshal jsonUnmarshal data meta
    rw [h]; rfl

end Rest

namespace Db

/-! ## Masking in `LogValue` -/

theorem urlForConfig_password_injective (c : ConnectionConfig) (p q : String)
    (h : URLForConfig { c with Password := p } = URLForConfig { c with Password := q }) :
    p = q := by
  simp only [URLForConfig, String.append_assoc] at h
  have hd := congrArg String.data h
  simp only [String.data_append, List.append_cancel_left_eq] at hd
  have hd2 := List.append_inj_left' hd rfl
  exact String.ext hd2

/-- C12: `LogValue` leaves the caller's configuration with `Password` equal to the
seven-star mask and every other field as it was; the `URL` attribute of the
returned group is `URLForConfig` of that masked configuration; hence, when the
password was not the mask, `URLForConfig` of the configuration after the call
differs from `URLForConfig` of the configuration before it. -/
theorem logValue_masks_password (c : ConnectionConfig) :
    c.LogValue.1 = { c with Password := "*******" }
    ∧ c.LogValue.1.Password = "*******"
    ∧ c.LogValue.1.Username = c.Username ∧ c.LogValue.1.Name = c.Name
    ∧ c.LogValue.1.Host = c.Host ∧ c.LogValue.1.Port = c.Port ∧ c.LogValue.1.SSL = c.SSL
    ∧ c.LogValue.2.getLast? = some (.string "URL" (URLForConfig c.LogValue.1))
    ∧ (∀ a ∈ c.LogValue.2, ∀ v, a = .string "URL" v → v = URLForConfig c.LogValue.1)
    ∧ (c.Password ≠ "*******" → URLForConfig c.LogValue.1 ≠ URLForConfig c) := by
  refine ⟨rfl, rfl, rfl, rfl, rfl, rfl, rfl, rfl, ?_, ?_⟩
  · intro a ha v hv
    subst hv
    simp [ConnectionConfig.LogValue] at ha
    exact ha
  · intro hne heq
    apply hne
    have := urlForConfig_password_injective c c.Password "*******" (by
      simpa [ConnectionConfig.LogValue] using heq.symm)
    exact this

/-- Witness of C12: the default configuration, whose password `pgpass` is not the
mask. -/
theorem logValue_masks_password_witness :
    URLForConfig (ConnectionConfig.LogValue
        ⟨"pguser", "pgpass", "postgres", "127.0.0.1", 5432, false⟩).1
      ≠ URLForConfig ⟨"pguser", "pgpass", "postgres", "127.0.0.1", 5432, false⟩ :=
  (logValue_masks_password ⟨"pguser", "pgpass", "postgres", "127.0.0.1", 5432, false⟩).2.2.2.2.2.2.2.2.2
    (by decide)

end Db
